import Mathlib

/-!
Verification of the Balanced Partition Engine of `app.py` (Logi-Flow team
balancer).  The definitions below are a shallow embedding of the engine:
`solve_cohort_v2` (model building, solving and roster extraction), the
ghost-GK injection step of `clean_and_score_data`, and the per-cohort
orchestration loop of the UI section.
-/

namespace Logiflow

/-- A player record as produced by the data-conditioning stage of `app.py`
(`clean_and_score_data`): the dataframe columns read by the ghost-injection
step and the solver engine.  Records in the source are dicts, so a key that no
code ever writes is modelled as an `Option` field whose value is `none`:
in particular no code in `app.py` ever writes an `is_placeholder` key. -/
structure Player where
  name : String
  position : String
  position_2 : String := "None"
  years_exp : Int := 0
  history_text : String := ""
  skill_score : Int
  category : String
  birth_year : Int := 2010
  age : Int := 14
  is_placeholder : Option Bool := none
deriving DecidableEq, Repr

/-- An output roster record: a player dict with the `Assigned_Team` key added
by the extraction loop of `solve_cohort_v2` (lines 163-171 of `app.py`). -/
structure OutputRecord extends Player where
  Assigned_Team : String
deriving DecidableEq, Repr

/-- Integer value of a CP-SAT boolean variable. -/
def b2i (b : Bool) : Int := if b then 1 else 0

/-- The pair `(x[p,0], x[p,1])` of team-membership booleans of one player;
`assigned pr t` is the value of `x[p,t]`. -/
def assigned (pr : Bool × Bool) (t : Nat) : Bool :=
  if t = 0 then pr.1 else pr.2

/-- `t_scores[t]` of `solve_cohort_v2` (line 154):
`sum(players[p]['skill_score'] * x[p, t] for p in all_players)`. -/
def teamScore (players : List Player) (x : List (Bool × Bool)) (t : Nat) : Int :=
  ((players.zip x).map (fun pc => pc.1.skill_score * b2i (assigned pc.2 t))).sum

/-- `sum(x[p, t] for p in all_players)` (line 138): the size of team `t`. -/
def teamSize (players : List Player) (x : List (Bool × Bool)) (t : Nat) : Int :=
  ((players.zip x).map (fun pc => b2i (assigned pc.2 t))).sum

/-- `sum(x[p, t] for p in pos_indices)` (line 149): how many players of
position `pos` are assigned to team `t`. -/
def posTeamCount (players : List Player) (x : List (Bool × Bool))
    (pos : String) (t : Nat) : Int :=
  ((players.zip x).map
    (fun pc => if pc.1.position == pos then b2i (assigned pc.2 t) else 0)).sum

/-- `count = len(pos_indices)` (line 145): how many players of the cohort have
position `pos`. -/
def posCount (players : List Player) (pos : String) : Nat :=
  (players.filter (fun p => p.position == pos)).length

/-- `math.ceil(count / num_teams)` with `num_teams = 2` (line 151). -/
def ceilHalf (c : Nat) : Nat := (c + 1) / 2

/-- Total skill score of a cohort. -/
def totalSkill (players : List Player) : Int :=
  (players.map Player.skill_score).sum

/-- The hard constraints posted by `solve_cohort_v2` other than the objective
variable's domain (lines 130-151 of `app.py`): one team per player, team sizes
in `[target, target + 1]` with `target = num_players // 2`, and for every
position present, per-team counts in `[count // 2, ceil(count / 2)]`. -/
def FeasibleBase (players : List Player) (x : List (Bool × Bool)) : Prop :=
  x.length = players.length ∧
  (∀ pr ∈ x, b2i (assigned pr 0) + b2i (assigned pr 1) = 1) ∧
  (∀ t ∈ [0, 1], ((players.length / 2 : Nat) : Int) ≤ teamSize players x t ∧
      teamSize players x t ≤ ((players.length / 2 : Nat) : Int) + 1) ∧
  (∀ pos ∈ players.map Player.position, ∀ t ∈ [0, 1],
      ((posCount players pos / 2 : Nat) : Int) ≤ posTeamCount players x pos t ∧
      posTeamCount players x pos t ≤ ((ceilHalf (posCount players pos) : Nat) : Int))

/-- `solver.Value(diff)` in any solution: `AddAbsEquality(diff, t0 - t1)`
forces `diff = |t0 - t1|` (line 156). -/
def objVal (players : List Player) (x : List (Bool × Bool)) : Int :=
  ((teamScore players x 0 - teamScore players x 1).natAbs : Int)

/-- Full feasibility of an assignment for the CP model of `solve_cohort_v2`:
the base constraints plus the domain `[0, 100000]` of the objective variable
`diff` (line 155), which via `AddAbsEquality` caps `|t0 - t1|` at `100000`. -/
def Feasible (players : List Player) (x : List (Bool × Bool)) : Prop :=
  FeasibleBase players x ∧ objVal players x ≤ 100000

instance decFeasibleBase (players : List Player) (x : List (Bool × Bool)) :
    Decidable (FeasibleBase players x) := by
  unfold FeasibleBase
  infer_instance

instance decFeasible (players : List Player) (x : List (Bool × Bool)) :
    Decidable (Feasible players x) := by
  unfold Feasible
  infer_instance

/-- All four values of a pair of team booleans of one player. -/
def allPairs : List (Bool × Bool) :=
  [(false, false), (false, true), (true, false), (true, true)]

/-- All assignments of team booleans to `n` players. -/
def allAssignments : Nat → List (List (Bool × Bool))
  | 0 => [[]]
  | n + 1 => (allAssignments n).flatMap (fun rest => allPairs.map (fun pr => pr :: rest))

/-- Pick the earliest assignment of minimum objective value from a list. -/
def chooseMin (players : List Player) :
    List (List (Bool × Bool)) → Option (List (Bool × Bool))
  | [] => none
  | a :: rest =>
    match chooseMin players rest with
    | none => some a
    | some b => if objVal players b < objVal players a then some b else some a

/-- Modelled from the spec: the external CP-SAT solver call
`solver.Solve(model)` (lines 160-161), which is a third-party library and not
part of this repository.  Per the spec's Exact Solver contract it is an exact
search over the feasible region: it returns a feasible assignment minimizing
the objective (status `OPTIMAL`), or no assignment when the hard constraints
are unsatisfiable (status `INFEASIBLE`). -/
def solverChoose (players : List Player) : Option (List (Bool × Bool)) :=
  chooseMin players
    ((allAssignments players.length).filter (fun x => decide (Feasible players x)))

/-- CP-SAT solve statuses. -/
inductive CpStatus where
  | UNKNOWN
  | MODEL_INVALID
  | FEASIBLE
  | INFEASIBLE
  | OPTIMAL
deriving DecidableEq, Repr

/-- The roster extracted for team `t` (lines 164-170): players `p` with
`solver.Value(x[p,t]) == 1`, in input order, each tagged with
`Assigned_Team = f"{cohort_name}_Team_{t+1}"`. -/
def rosterFor (cohort_name : String) (players : List Player)
    (x : List (Bool × Bool)) (t : Nat) : List OutputRecord :=
  ((players.zip x).filter (fun pc => assigned pc.2 t)).map
    (fun pc =>
      { toPlayer := pc.1,
        Assigned_Team := cohort_name ++ "_Team_" ++ toString (t + 1) })

/-- The status branch of `solve_cohort_v2` (lines 163-173): on `OPTIMAL` or
`FEASIBLE` return the two rosters and `solver.Value(diff)`; on any other
status return `(None, None)`. -/
def extractResult (cohort_name : String) (players : List Player)
    (status : CpStatus) (x : List (Bool × Bool)) :
    Option (List OutputRecord × List OutputRecord) × Option Int :=
  if status = CpStatus.OPTIMAL ∨ status = CpStatus.FEASIBLE then
    (some (rosterFor cohort_name players x 0, rosterFor cohort_name players x 1),
     some (objVal players x))
  else
    (none, none)

/-- `solve_cohort_v2` (lines 115-173 of `app.py`): build the CP model over the
cohort's players, solve it, and extract the rosters and achieved skill
differential, or `(None, None)` when the model is infeasible. -/
def solve_cohort_v2 (cohort_name : String) (df_cohort : List Player) :
    Option (List OutputRecord × List OutputRecord) × Option Int :=
  match solverChoose df_cohort with
  | some x => extractResult cohort_name df_cohort CpStatus.OPTIMAL x
  | none => extractResult cohort_name df_cohort CpStatus.INFEASIBLE []

/-- The ghost dict of `clean_and_score_data` (lines 101-109).  Note it has no
`is_placeholder` key and a fixed `skill_score` of 50. -/
def ghostGK : Player :=
  { name := "GHOST_GK_PLACEHOLDER",
    position := "GK",
    position_2 := "None",
    years_exp := 3,
    history_text := "Generated",
    skill_score := 50,
    category := "Group_2010_Plus",
    birth_year := 2010,
    age := 14 }

/-- `len(gks_2010)` (line 98-99): the number of players whose `category` is
`Group_2010_Plus` and whose `position` is `GK`. -/
def gk2010Count (df : List Player) : Nat :=
  (df.filter (fun p => p.category == "Group_2010_Plus" && p.position == "GK")).length

/-- The ghost-injection step of `clean_and_score_data` (lines 96-112 of
`app.py`); the preceding dataframe normalization and scoring produce the
`Player` records and are outside the engine per the spec's scope.  If the
`Group_2010_Plus` cohort has exactly one GK, append the ghost; otherwise
return the list unchanged. -/
def ghostInjection (df : List Player) : List Player :=
  if gk2010Count df = 1 then df ++ [ghostGK] else df

/-- Insert a string into a sorted list of strings. -/
def insertSorted (s : String) : List String → List String
  | [] => [s]
  | a :: rest => if s ≤ a then s :: a :: rest else a :: insertSorted s rest

/-- Insertion sort on strings, modelling Python's `sorted`. -/
def sortStrings : List String → List String
  | [] => []
  | a :: rest => insertSorted a (sortStrings rest)

/-- `sorted(df['category'].unique())` (line 193): the distinct cohort names in
ascending order. -/
def cohortsOf (df : List Player) : List String :=
  sortStrings (df.map Player.category).dedup

/-- The cohort loop of the UI section (lines 196-238): each cohort name paired
with the result of `solve_cohort_v2` on the rows of that cohort.  Rendering
side effects are dropped; the data outcome per cohort is kept. -/
def processCohorts (df : List Player) :
    List (String × (Option (List OutputRecord × List OutputRecord) × Option Int)) :=
  (cohortsOf df).map
    (fun c => (c, solve_cohort_v2 c (df.filter (fun p => p.category == c))))

/-! Concrete inputs used to exercise the engine. -/

/-- A demo player: a goalkeeper of the 2008-2009 cohort. -/
def pA : Player :=
  { name := "Alice", position := "GK", skill_score := 30, category := "Group_2008_2009" }

/-- A second demo goalkeeper of the 2008-2009 cohort. -/
def pB : Player :=
  { name := "Bob", position := "GK", skill_score := 20, category := "Group_2008_2009" }

/-- A two-player demo cohort. -/
def demo2 : List Player := [pA, pB]

/-- The output record of `pA` in the solved demo cohort. -/
def oA : OutputRecord := { toPlayer := pA, Assigned_Team := "G_Team_1" }

/-- The output record of `pB` in the solved demo cohort. -/
def oB : OutputRecord := { toPlayer := pB, Assigned_Team := "G_Team_2" }

/-- A lone real goalkeeper of the `Group_2010_Plus` cohort, skill 80, which
triggers the ghost injection. -/
def gkReal : Player :=
  { name := "Hana", position := "GK", skill_score := 80, category := "Group_2010_Plus" }

/-- A lone goalkeeper of the `Group_2008_2009` cohort. -/
def p8 : Player :=
  { name := "Kenji", position := "GK", skill_score := 40, category := "Group_2008_2009" }

/-- A midfielder with 100000 years of recorded experience, hence skill score
`100000 * 2 + 15 = 200015` under `calculate_skill`. -/
def pHuge : Player :=
  { name := "Taro", position := "MID", skill_score := 200015,
    category := "GroupB", years_exp := 100000 }

/-- A midfielder with no experience, skill score 15. -/
def pTiny : Player :=
  { name := "Yuki", position := "MID", skill_score := 15, category := "GroupB" }

/-- A cohort whose only size/position-feasible splits have skill differential
200000, beyond the objective variable's declared domain. -/
def c7cohort : List Player := [pHuge, pTiny]

/-- The splitting of `c7cohort` that puts one midfielder on each team. -/
def c7x : List (Bool × Bool) := [(true, false), (false, true)]

/-- A lone forward forming a one-player cohort `GroupA`. -/
def pSolo : Player :=
  { name := "Aki", position := "FWD", skill_score := 25, category := "GroupA" }

/-- A two-cohort input: the feasible singleton `GroupA` plus the infeasible
`GroupB` of `c7cohort`. -/
def df9 : List Player := [pSolo, pHuge, pTiny]

/-! General counting lemmas relating solver sums to roster lists. -/

theorem sum_map_add (l : List α) (f g : α → Int) :
    (l.map fun a => f a + g a).sum = (l.map f).sum + (l.map g).sum := by
  induction l with
  | nil => simp
  | cons a tl ih => simp [ih]; ring

theorem sum_b2i (l : List α) (p : α → Bool) :
    (l.map fun a => b2i (p a)).sum = ((l.filter p).length : Int) := by
  induction l with
  | nil => simp
  | cons a tl ih =>
    rw [List.map_cons, List.sum_cons, ih, List.filter_cons]
    cases h : p a <;> simp [h, b2i] <;> push_cast <;> omega

theorem sum_if_b2i (l : List α) (q p : α → Bool) :
    (l.map fun a => if q a then b2i (p a) else 0).sum
      = ((l.filter fun a => q a && p a).length : Int) := by
  induction l with
  | nil => simp
  | cons a tl ih =>
    rw [List.map_cons, List.sum_cons, ih, List.filter_cons]
    cases hq : q a <;> cases hp : p a <;>
      simp [hq, hp, b2i] <;> push_cast <;> omega

theorem sum_map_filter (l : List α) (p : α → Bool) (f : α → Int) :
    ((l.filter p).map f).sum = (l.map fun a => f a * b2i (p a)).sum := by
  induction l with
  | nil => simp
  | cons a tl ih =>
    cases h : p a <;> simp [List.filter_cons, h, b2i, ih]

theorem filter_map_comm (l : List α) (f : α → β) (q : β → Bool) :
    (l.map f).filter q = (l.filter fun a => q (f a)).map f := by
  induction l with
  | nil => simp
  | cons a tl ih =>
    cases h : q (f a) <;> simp [List.filter_cons, h, ih]

theorem filter_filter_conj (l : List α) (p q : α → Bool) :
    (l.filter p).filter q = l.filter fun a => p a && q a := by
  induction l with
  | nil => simp
  | cons a tl ih =>
    cases hp : p a <;> cases hq : q a <;> simp [List.filter_cons, hp, hq, ih]

/-! Facts about the modelled solver. -/

theorem chooseMin_mem (players : List Player) (l : List (List (Bool × Bool)))
    (x : List (Bool × Bool)) (h : chooseMin players l = some x) : x ∈ l := by
  induction l with
  | nil => simp [chooseMin] at h
  | cons a tl ih =>
    simp only [chooseMin] at h
    cases hb : chooseMin players tl with
    | none =>
      rw [hb] at h
      simp only [Option.some.injEq] at h
      simp [h]
    | some b =>
      rw [hb] at h
      dsimp only at h
      split at h
      · simp only [Option.some.injEq] at h
        rw [h] at hb
        exact List.mem_cons_of_mem a (ih hb)
      · simp only [Option.some.injEq] at h
        simp [h]

theorem solverChoose_feasible (players : List Player) (x : List (Bool × Bool))
    (hx : solverChoose players = some x) : Feasible players x := by
  have hmem := chooseMin_mem players _ x hx
  exact of_decide_eq_true (List.mem_filter.mp hmem).2

theorem extractResult_optimal (cn : String) (players : List Player)
    (x : List (Bool × Bool)) :
    extractResult cn players CpStatus.OPTIMAL x
      = (some (rosterFor cn players x 0, rosterFor cn players x 1),
         some (objVal players x)) := rfl

theorem extractResult_infeasible (cn : String) (players : List Player)
    (x : List (Bool × Bool)) :
    extractResult cn players CpStatus.INFEASIBLE x = (none, none) := rfl

/-- Inversion of a successful `solve_cohort_v2` run: the returned rosters and
differential come from a feasible assignment of the CP model. -/
theorem solve_some (cn : String) (players : List Player)
    (r0 r1 : List OutputRecord) (d : Option Int)
    (h : solve_cohort_v2 cn players = (some (r0, r1), d)) :
    ∃ x, Feasible players x ∧ r0 = rosterFor cn players x 0 ∧
      r1 = rosterFor cn players x 1 ∧ d = some (objVal players x) := by
  unfold solve_cohort_v2 at h
  cases hx : solverChoose players with
  | none =>
    rw [hx] at h
    dsimp only at h
    rw [extractResult_infeasible] at h
    simp at h
  | some x =>
    rw [hx] at h
    dsimp only at h
    rw [extractResult_optimal] at h
    simp only [Prod.mk.injEq, Option.some.injEq] at h
    exact ⟨x, solverChoose_feasible players x hx, h.1.1.symm, h.1.2.symm, h.2.symm⟩

theorem b2i_sum_eq_one (a b : Bool) (h : b2i a + b2i b = 1) : b = !a := by
  cases a <;> cases b <;> simp_all [b2i]

theorem sum_ones (l : List α) : (l.map fun _ => (1 : Int)).sum = (l.length : Int) := by
  induction l with
  | nil => simp
  | cons a tl ih =>
    simp [ih]
    omega

theorem zip_map_fst_sum (players : List Player) (x : List (Bool × Bool))
    (f : Player → Int) (hlen : x.length = players.length) :
    ((players.zip x).map fun pc => f pc.1).sum = (players.map f).sum := by
  induction players generalizing x with
  | nil => simp
  | cons p tl ih =>
    cases x with
    | nil => simp at hlen
    | cons pr xtl =>
      rw [List.zip_cons_cons, List.map_cons, List.sum_cons, List.map_cons,
        List.sum_cons, ih xtl (by simpa using hlen)]

/-- The length of an extracted roster is the team-size sum of the model. -/
theorem rosterFor_length (cn : String) (players : List Player)
    (x : List (Bool × Bool)) (t : Nat) :
    ((rosterFor cn players x t).length : Int) = teamSize players x t := by
  unfold rosterFor teamSize
  rw [List.length_map, sum_b2i]

/-- Under the one-team-per-player constraint the two team sizes sum to the
cohort size. -/
theorem teamSize_sum (players : List Player) (x : List (Bool × Bool))
    (hlen : x.length = players.length)
    (hone : ∀ pr ∈ x, b2i (assigned pr 0) + b2i (assigned pr 1) = 1) :
    teamSize players x 0 + teamSize players x 1 = players.length := by
  unfold teamSize
  rw [← sum_map_add]
  have h1 : ((players.zip x).map fun pc => b2i (assigned pc.2 0) + b2i (assigned pc.2 1))
      = (players.zip x).map fun pc => (1 : Int) := by
    apply List.map_congr_left
    intro pc hpc
    exact hone pc.2 (List.of_mem_zip hpc).2
  rw [h1, sum_ones]
  simp [List.length_zip, hlen]

/-- Under the one-team-per-player constraint the two team scores sum to the
cohort's total skill. -/
theorem teamScore_total (players : List Player) (x : List (Bool × Bool))
    (hlen : x.length = players.length)
    (hone : ∀ pr ∈ x, b2i (assigned pr 0) + b2i (assigned pr 1) = 1) :
    teamScore players x 0 + teamScore players x 1 = totalSkill players := by
  unfold teamScore totalSkill
  rw [← sum_map_add]
  have h1 : ((players.zip x).map
        fun pc => pc.1.skill_score * b2i (assigned pc.2 0)
          + pc.1.skill_score * b2i (assigned pc.2 1))
      = (players.zip x).map fun pc => pc.1.skill_score := by
    apply List.map_congr_left
    intro pc hpc
    rw [← mul_add, hone pc.2 (List.of_mem_zip hpc).2, mul_one]
  rw [h1, zip_map_fst_sum players x Player.skill_score hlen]

/-- The skill sum of an extracted roster is the team score of the model. -/
theorem rosterFor_skill_sum (cn : String) (players : List Player)
    (x : List (Bool × Bool)) (t : Nat) :
    ((rosterFor cn players x t).map fun r => r.skill_score).sum
      = teamScore players x t := by
  unfold rosterFor teamScore
  rw [List.map_map, sum_map_filter]
  rfl

/-- The per-position count of an extracted roster is the per-position team
count of the model. -/
theorem rosterFor_pos_count (cn : String) (players : List Player)
    (x : List (Bool × Bool)) (t : Nat) (pos : String) :
    (((rosterFor cn players x t).filter fun r => r.position == pos).length : Int)
      = posTeamCount players x pos t := by
  unfold rosterFor posTeamCount
  rw [filter_map_comm, List.length_map, sum_if_b2i]
  show ((((players.zip x).filter fun pc => assigned pc.2 t).filter
        fun pc => pc.1.position == pos).length : Int)
      = (((players.zip x).filter
          fun pc => (pc.1.position == pos) && assigned pc.2 t).length : Int)
  rw [filter_filter_conj]
  have hpq : ((players.zip x).filter fun pc => assigned pc.2 t && (pc.1.position == pos))
      = (players.zip x).filter fun pc => (pc.1.position == pos) && assigned pc.2 t :=
    List.filter_congr fun a _ => Bool.and_comm _ _
  rw [hpq]

/-- The players of an extracted roster come from the cohort's list. -/
theorem rosterFor_toPlayer_mem (cn : String) (players : List Player)
    (x : List (Bool × Bool)) (t : Nat) (rec : OutputRecord)
    (h : rec ∈ rosterFor cn players x t) : rec.toPlayer ∈ players := by
  unfold rosterFor at h
  obtain ⟨pc, hpc, rfl⟩ := List.mem_map.mp h
  exact (List.of_mem_zip (List.mem_filter.mp hpc).1).1

/-- The input players of an extracted roster, in order. -/
theorem rosterFor_map_toPlayer (cn : String) (players : List Player)
    (x : List (Bool × Bool)) (t : Nat) :
    (rosterFor cn players x t).map OutputRecord.toPlayer
      = ((players.zip x).filter fun pc => assigned pc.2 t).map Prod.fst := by
  unfold rosterFor
  rw [List.map_map]
  rfl

/-- Shared size-balance fact: a successful solve splits the cohort into teams
of sizes `N / 2` and `(N + 1) / 2` in some order. -/
theorem solve_sizes (cn : String) (players : List Player)
    (r0 r1 : List OutputRecord) (d : Option Int)
    (h : solve_cohort_v2 cn players = (some (r0, r1), d)) :
    r0.length + r1.length = players.length ∧
      ((r0.length = players.length / 2 ∧ r1.length = (players.length + 1) / 2) ∨
       (r0.length = (players.length + 1) / 2 ∧ r1.length = players.length / 2)) := by
  obtain ⟨x, hf, h0, h1, -⟩ := solve_some cn players r0 r1 d h
  obtain ⟨⟨hlen, hone, hsize, -⟩, -⟩ := hf
  have hs0 := hsize 0 (by simp)
  have hs1 := hsize 1 (by simp)
  have hsum := teamSize_sum players x hlen hone
  have l0 : ((r0.length : Nat) : Int) = teamSize players x 0 := by
    rw [h0]
    exact rosterFor_length cn players x 0
  have l1 : ((r1.length : Nat) : Int) = teamSize players x 1 := by
    rw [h1]
    exact rosterFor_length cn players x 1
  omega

/-- C1: whenever `solve_cohort_v2` returns a roster for a cohort of size `N`,
the two team sizes are `⌊N/2⌋` and `⌈N/2⌉` in some order, so they sum to `N`
and differ by at most 1. -/
theorem solve_cohort_v2_size_balance (cn : String) (players : List Player)
    (r0 r1 : List OutputRecord) (d : Option Int)
    (h : solve_cohort_v2 cn players = (some (r0, r1), d)) :
    r0.length + r1.length = players.length ∧
      ((r0.length = players.length / 2 ∧ r1.length = (players.length + 1) / 2) ∨
       (r0.length = (players.length + 1) / 2 ∧ r1.length = players.length / 2)) ∧
      ((r0.length : Int) - (r1.length : Int)).natAbs ≤ 1 := by
  obtain ⟨hsum, hd⟩ := solve_sizes cn players r0 r1 d h
  exact ⟨hsum, hd, by omega⟩

/-- C1 witness: the solved demo cohort of two goalkeepers. -/
theorem size_balance_witness :
    ([oA] : List OutputRecord).length + ([oB] : List OutputRecord).length
        = demo2.length ∧
      ((([oA] : List OutputRecord).length = demo2.length / 2 ∧
          ([oB] : List OutputRecord).length = (demo2.length + 1) / 2) ∨
       (([oA] : List OutputRecord).length = (demo2.length + 1) / 2 ∧
          ([oB] : List OutputRecord).length = demo2.length / 2)) ∧
      ((([oA] : List OutputRecord).length : Int)
          - (([oB] : List OutputRecord).length : Int)).natAbs ≤ 1 :=
  solve_cohort_v2_size_balance "G" demo2 [oA] [oB] (some 10) (by decide)

/-- C10: for a one-player cohort, `solve_cohort_v2` either reports
infeasibility or returns a 1/0 split whose sizes are exactly
`{⌊1/2⌋, ⌈1/2⌉} = {0, 1}`. -/
theorem solve_cohort_v2_single_player (cn : String) (p : Player) :
    (solve_cohort_v2 cn [p]).1 = none ∨
      ∃ r0 r1 d, solve_cohort_v2 cn [p] = (some (r0, r1), d) ∧
        ((r0.length = 0 ∧ r1.length = 1) ∨ (r0.length = 1 ∧ r1.length = 0)) := by
  rcases hres : solve_cohort_v2 cn [p] with ⟨a, b⟩
  cases a with
  | none =>
    left
    rfl
  | some pr =>
    obtain ⟨r0, r1⟩ := pr
    right
    obtain ⟨hsum, hd⟩ := solve_sizes cn [p] r0 r1 b hres
    refine ⟨r0, r1, b, rfl, ?_⟩
    simp only [List.length_cons, List.length_nil] at hsum hd
    omega

/-- C2: whenever `solve_cohort_v2` returns a roster, every position present in
the cohort with count `C` contributes at least `⌊C/2⌋` and at most `⌈C/2⌉`
players to each of the two teams. -/
theorem solve_cohort_v2_position_balance (cn : String) (players : List Player)
    (r0 r1 : List OutputRecord) (d : Option Int)
    (h : solve_cohort_v2 cn players = (some (r0, r1), d)) :
    ∀ pos ∈ players.map Player.position,
      posCount players pos / 2 ≤ (r0.filter fun r => r.position == pos).length ∧
      (r0.filter fun r => r.position == pos).length ≤ ceilHalf (posCount players pos) ∧
      posCount players pos / 2 ≤ (r1.filter fun r => r.position == pos).length ∧
      (r1.filter fun r => r.position == pos).length ≤ ceilHalf (posCount players pos) := by
  obtain ⟨x, hf, h0, h1, -⟩ := solve_some cn players r0 r1 d h
  obtain ⟨⟨-, -, -, hpos⟩, -⟩ := hf
  intro pos hp
  have hp0 := hpos pos hp 0 (by simp)
  have hp1 := hpos pos hp 1 (by simp)
  have c0 : (((r0.filter fun r => r.position == pos).length : Nat) : Int)
      = posTeamCount players x pos 0 := by
    rw [h0]
    exact rosterFor_pos_count cn players x 0 pos
  have c1 : (((r1.filter fun r => r.position == pos).length : Nat) : Int)
      = posTeamCount players x pos 1 := by
    rw [h1]
    exact rosterFor_pos_count cn players x 1 pos
  simp only [ceilHalf] at hp0 hp1 ⊢
  omega

/-- C2 witness: the GK position of the solved demo cohort. -/
theorem position_balance_witness :
    posCount demo2 "GK" / 2
        ≤ (([oA] : List OutputRecord).filter fun r => r.position == "GK").length ∧
      (([oA] : List OutputRecord).filter fun r => r.position == "GK").length
        ≤ ceilHalf (posCount demo2 "GK") ∧
      posCount demo2 "GK" / 2
        ≤ (([oB] : List OutputRecord).filter fun r => r.position == "GK").length ∧
      (([oB] : List OutputRecord).filter fun r => r.position == "GK").length
        ≤ ceilHalf (posCount demo2 "GK") :=
  solve_cohort_v2_position_balance "G" demo2 [oA] [oB] (some 10) (by decide)
    "GK" (by decide)

/-- C3: whenever `solve_cohort_v2` returns a roster, the two teams together
are a permutation of the input list, and (for duplicate-free inputs) every
input player occurs in exactly one of the two teams. -/
theorem solve_cohort_v2_coverage (cn : String) (players : List Player)
    (r0 r1 : List OutputRecord) (d : Option Int)
    (h : solve_cohort_v2 cn players = (some (r0, r1), d)) :
    ((r0.map OutputRecord.toPlayer ++ r1.map OutputRecord.toPlayer).Perm players) ∧
      (players.Nodup → ∀ p ∈ players,
        (r0.map OutputRecord.toPlayer).count p
          + (r1.map OutputRecord.toPlayer).count p = 1) := by
  obtain ⟨x, hf, h0, h1, -⟩ := solve_some cn players r0 r1 d h
  obtain ⟨⟨hlen, hone, -, -⟩, -⟩ := hf
  have hperm : (r0.map OutputRecord.toPlayer ++ r1.map OutputRecord.toPlayer).Perm players := by
    rw [h0, h1, rosterFor_map_toPlayer, rosterFor_map_toPlayer]
    have hnot : ((players.zip x).filter fun pc => assigned pc.2 1)
        = (players.zip x).filter fun pc => !(assigned pc.2 0) := by
      apply List.filter_congr
      intro pc hpc
      exact b2i_sum_eq_one _ _ (hone pc.2 (List.of_mem_zip hpc).2)
    rw [hnot, ← List.map_append]
    have hp2 := List.filter_append_perm (fun pc => assigned pc.2 0) (players.zip x)
    have hp3 := hp2.map Prod.fst
    rw [List.map_fst_zip players x (le_of_eq hlen.symm)] at hp3
    exact hp3
  refine ⟨hperm, fun hnd p hp => ?_⟩
  have hcnt := hperm.count_eq p
  rw [List.count_append, List.count_eq_one_of_mem hnd hp] at hcnt
  exact hcnt

/-- C3 witness: the solved demo cohort covers both input players. -/
theorem coverage_witness :
    (([oA] : List OutputRecord).map OutputRecord.toPlayer
        ++ ([oB] : List OutputRecord).map OutputRecord.toPlayer).Perm demo2 :=
  (solve_cohort_v2_coverage "G" demo2 [oA] [oB] (some 10) (by decide)).1

/-- C4: the skill differential reported by `solve_cohort_v2` equals the
absolute difference of the skill sums of the two returned rosters, recomputed
from the rosters themselves. -/
theorem solve_cohort_v2_objective (cn : String) (players : List Player)
    (r0 r1 : List OutputRecord) (d : Int)
    (h : solve_cohort_v2 cn players = (some (r0, r1), some d)) :
    d = (((r0.map fun r => r.skill_score).sum
        - (r1.map fun r => r.skill_score).sum).natAbs : Int) := by
  obtain ⟨x, -, h0, h1, hd⟩ := solve_some cn players r0 r1 (some d) h
  simp only [Option.some.injEq] at hd
  rw [hd, h0, h1]
  unfold objVal
  rw [rosterFor_skill_sum, rosterFor_skill_sum]

/-- C4 witness: the demo cohort's reported differential 10 is `|30 - 20|`. -/
theorem objective_witness :
    (10 : Int) = (((([oA] : List OutputRecord).map fun r => r.skill_score).sum
        - (([oB] : List OutputRecord).map fun r => r.skill_score).sum).natAbs : Int) :=
  solve_cohort_v2_objective "G" demo2 [oA] [oB] 10 (by decide)

/-- C5 counterexample: the `Group_2008_2009` cohort of `[p8]` has exactly one
GK, yet the conditioner injects nothing — the injection rule is not applied
per cohort as the claim states, only to `Group_2010_Plus`. -/
theorem gk_rule_other_cohort_counterexample :
    ([p8].filter fun p => p.category == "Group_2008_2009" && p.position == "GK").length = 1
      ∧ ghostInjection [p8] = [p8] :=
  ⟨by decide, by decide⟩

/-- C5 (amended): only the `Group_2010_Plus` cohort is conditioned.  When the
input's count of `Group_2010_Plus` GKs is exactly 1 the fixed ghost (name
`GHOST_GK_PLACEHOLDER`, constant skill 50, no `is_placeholder` field) is
appended, otherwise nothing changes; the player lists of all other cohorts are
never modified. -/
theorem ghostInjection_cohorts (df : List Player) (c : String)
    (hc : c ≠ "Group_2010_Plus") :
    ((ghostInjection df).filter fun p => p.category == c)
        = df.filter (fun p => p.category == c) ∧
      (gk2010Count df = 1 → ghostInjection df = df ++ [ghostGK]) ∧
      (gk2010Count df ≠ 1 → ghostInjection df = df) := by
  unfold ghostInjection
  by_cases hcnt : gk2010Count df = 1
  · rw [if_pos hcnt]
    refine ⟨?_, fun _ => rfl, fun hn => absurd hcnt hn⟩
    rw [List.filter_append]
    have hb : (ghostGK.category == c) = false := by
      rw [beq_eq_false_iff_ne]
      exact fun h => hc h.symm
    have hg : List.filter (fun p => p.category == c) [ghostGK] = [] := by
      simp [List.filter_cons, hb]
    rw [hg, List.append_nil]
  · rw [if_neg hcnt]
    exact ⟨rfl, fun h1 => absurd h1 hcnt, fun _ => rfl⟩

/-- C5 witness: the `Group_2008_2009` cohort is untouched by the conditioner. -/
theorem ghostInjection_cohorts_witness :
    ((ghostInjection [p8]).filter fun p => p.category == "Group_2008_2009")
      = [p8].filter fun p => p.category == "Group_2008_2009" :=
  (ghostInjection_cohorts [p8] "Group_2008_2009" (by decide)).1

/-- C6 counterexample: after conditioning the single-GK 2010 cohort, the ghost
appears in a returned roster but its record does not carry
`is_placeholder = true` (the field is absent). -/
theorem placeholder_flag_counterexample :
    solve_cohort_v2 "Group_2010_Plus" (ghostInjection [gkReal])
        = (some ([{ toPlayer := gkReal, Assigned_Team := "Group_2010_Plus_Team_1" }],
                 [{ toPlayer := ghostGK, Assigned_Team := "Group_2010_Plus_Team_2" }]),
           some 30) ∧
      ({ toPlayer := ghostGK, Assigned_Team := "Group_2010_Plus_Team_2" }
          : OutputRecord).is_placeholder ≠ some true :=
  ⟨by decide, by decide⟩

/-- C6 (amended): no output record of a conditioned run ever carries an
`is_placeholder` value when the real input players carry none; the injected
ghost included — it is identifiable in the output only by its name. -/
theorem output_no_placeholder_flag (cn : String) (players : List Player)
    (r0 r1 : List OutputRecord) (d : Option Int)
    (h : solve_cohort_v2 cn (ghostInjection players) = (some (r0, r1), d))
    (hin : ∀ p ∈ players, p.is_placeholder = none) :
    ∀ rec ∈ r0 ++ r1, rec.is_placeholder = none := by
  obtain ⟨x, -, h0, h1, -⟩ := solve_some cn (ghostInjection players) r0 r1 d h
  intro rec hrec
  have hmem : rec.toPlayer ∈ ghostInjection players := by
    rcases List.mem_append.mp hrec with hr | hr
    · rw [h0] at hr
      exact rosterFor_toPlayer_mem cn _ x 0 rec hr
    · rw [h1] at hr
      exact rosterFor_toPlayer_mem cn _ x 1 rec hr
  have hsplit : rec.toPlayer ∈ players ∨ rec.toPlayer = ghostGK := by
    unfold ghostInjection at hmem
    by_cases hcnt : gk2010Count players = 1
    · rw [if_pos hcnt] at hmem
      rcases List.mem_append.mp hmem with hm | hm
      · exact Or.inl hm
      · right
        simpa using hm
    · rw [if_neg hcnt] at hmem
      exact Or.inl hmem
  show rec.toPlayer.is_placeholder = none
  rcases hsplit with hm | hm
  · exact hin _ hm
  · rw [hm]
    rfl

/-- C6 witness: the ghost record returned for the conditioned single-GK 2010
cohort carries no `is_placeholder` value. -/
theorem output_no_placeholder_flag_witness :
    ({ toPlayer := ghostGK, Assigned_Team := "Group_2010_Plus_Team_2" }
      : OutputRecord).is_placeholder = none :=
  output_no_placeholder_flag "Group_2010_Plus" [gkReal]
    [{ toPlayer := gkReal, Assigned_Team := "Group_2010_Plus_Team_1" }]
    [{ toPlayer := ghostGK, Assigned_Team := "Group_2010_Plus_Team_2" }]
    (some 30) (by decide) (by decide)
    { toPlayer := ghostGK, Assigned_Team := "Group_2010_Plus_Team_2" } (by decide)

/-- C7 counterexample: the cohort `[pHuge, pTiny]` satisfies every size and
position constraint under the split `c7x`, its total skill 200030 exceeds the
fixed declared domain bound 100000 of the objective variable, and
`solve_cohort_v2` silently reports the cohort infeasible. -/
theorem diff_domain_counterexample :
    FeasibleBase c7cohort c7x ∧ 100000 < totalSkill c7cohort ∧
      solve_cohort_v2 "GroupB" c7cohort = (none, none) :=
  ⟨by decide, by decide, by decide⟩

theorem teamScore_nonneg (players : List Player) (x : List (Bool × Bool))
    (t : Nat) (hsk : ∀ p ∈ players, 0 ≤ p.skill_score) :
    0 ≤ teamScore players x t := by
  unfold teamScore
  apply List.sum_nonneg
  intro v hv
  obtain ⟨pc, hpc, rfl⟩ := List.mem_map.mp hv
  have h1 : 0 ≤ pc.1.skill_score := hsk pc.1 (List.of_mem_zip hpc).1
  have h2 : 0 ≤ b2i (assigned pc.2 t) := by
    cases assigned pc.2 t <;> simp [b2i]
  exact mul_nonneg h1 h2

/-- C7 (amended): the objective variable's declared domain is the constant
range `[0, 100000]`, independent of the cohort; it covers every achievable
differential — so no feasible split is truncated — exactly on cohorts of
non-negative skill whose total skill is at most 100000.  Beyond that bound
size/position-feasible splits can be cut off (see the counterexample). -/
theorem diff_domain_sufficient (players : List Player) (x : List (Bool × Bool))
    (hsk : ∀ p ∈ players, 0 ≤ p.skill_score)
    (htot : totalSkill players ≤ 100000)
    (hfb : FeasibleBase players x) :
    Feasible players x := by
  refine ⟨hfb, ?_⟩
  obtain ⟨hlen, hone, -, -⟩ := hfb
  have hts := teamScore_total players x hlen hone
  have h0 := teamScore_nonneg players x 0 hsk
  have h1 := teamScore_nonneg players x 1 hsk
  unfold objVal
  omega

/-- C7 witness: on the small demo cohort (total skill 50) the cap never
excludes a size/position-feasible split. -/
theorem diff_domain_sufficient_witness :
    Feasible demo2 [(true, false), (false, true)] :=
  diff_domain_sufficient demo2 [(true, false), (false, true)]
    (by decide) (by decide) (by decide)

/-- C8 counterexample: the value returned for an `INFEASIBLE` status is
identical to the value returned for the solver-error status `MODEL_INVALID` —
`(None, None)` both times — so nothing in the return value distinguishes
infeasibility from a solver error. -/
theorem status_signal_counterexample :
    extractResult "GroupB" c7cohort CpStatus.INFEASIBLE []
        = extractResult "GroupB" c7cohort CpStatus.MODEL_INVALID [] ∧
      extractResult "GroupB" c7cohort CpStatus.INFEASIBLE [] = (none, none) :=
  ⟨rfl, rfl⟩

/-- C8 (amended): on every status other than `OPTIMAL` and `FEASIBLE`,
`solve_cohort_v2`'s extraction step returns the bare `(None, None)`, carrying
no signal of which non-success status occurred. -/
theorem extractResult_no_roster (cn : String) (players : List Player)
    (x : List (Bool × Bool)) (status : CpStatus)
    (h1 : status ≠ CpStatus.OPTIMAL) (h2 : status ≠ CpStatus.FEASIBLE) :
    extractResult cn players status x = (none, none) := by
  unfold extractResult
  rw [if_neg (fun hc => hc.elim h1 h2)]

/-- C8 witness: the solver-error status `MODEL_INVALID` yields `(None, None)`. -/
theorem extractResult_no_roster_witness :
    extractResult "G" demo2 CpStatus.MODEL_INVALID [] = (none, none) :=
  extractResult_no_roster "G" demo2 [] CpStatus.MODEL_INVALID
    (by decide) (by decide)

theorem mem_insertSorted (s a : String) (l : List String) :
    a ∈ insertSorted s l ↔ a = s ∨ a ∈ l := by
  induction l with
  | nil => simp [insertSorted]
  | cons b tl ih =>
    unfold insertSorted
    by_cases h : s ≤ b
    · rw [if_pos h]
      simp [List.mem_cons]
    · rw [if_neg h]
      simp only [List.mem_cons, ih]
      tauto

theorem mem_sortStrings (a : String) (l : List String) :
    a ∈ sortStrings l ↔ a ∈ l := by
  induction l with
  | nil => simp [sortStrings]
  | cons b tl ih => simp [sortStrings, mem_insertSorted, ih]

theorem lookup_map_pair (f : String → β) (l : List String) (c : String)
    (hc : c ∈ l) :
    (l.map fun a => (a, f a)).lookup c = some (f c) := by
  induction l with
  | nil => cases hc
  | cons a tl ih =>
    rw [List.map_cons]
    by_cases h : c = a
    · subst h
      simp [List.lookup]
    · have hc2 : c ∈ tl := (List.mem_cons.mp hc).resolve_left h
      have hba : (c == a) = false := beq_eq_false_iff_ne.mpr h
      simp [List.lookup, hba, ih hc2]

/-- Removing the rows of a different cohort does not change a cohort's rows. -/
theorem filter_category_drop (df : List Player) (bad c : String)
    (hne : c ≠ bad) :
    ((df.filter fun p => !(p.category == bad)).filter fun p => p.category == c)
      = df.filter fun p => p.category == c := by
  rw [filter_filter_conj]
  apply List.filter_congr
  intro p _
  cases hcc : (p.category == c) with
  | false => simp [hcc]
  | true =>
    have hpc : p.category = c := by simpa using hcc
    have hbb : (p.category == bad) = false := by
      rw [beq_eq_false_iff_ne, hpc]
      exact hne
    simp [hcc, hbb]

/-- A surviving cohort still appears after the rows of another cohort are
removed. -/
theorem mem_cohortsOf_filter (df : List Player) (bad c : String)
    (hne : c ≠ bad) (hc : c ∈ cohortsOf df) :
    c ∈ cohortsOf (df.filter fun p => !(p.category == bad)) := by
  unfold cohortsOf at hc ⊢
  rw [mem_sortStrings, List.mem_dedup] at hc ⊢
  obtain ⟨p, hp, hpc⟩ := List.mem_map.mp hc
  apply List.mem_map.mpr
  refine ⟨p, List.mem_filter.mpr ⟨hp, ?_⟩, hpc⟩
  have hbb : (p.category == bad) = false := by
    rw [beq_eq_false_iff_ne, hpc]
    exact hne
  simp [hbb]

/-- C9: a solve failure in one cohort aborts nothing: every other cohort `c`
still has exactly its own entry in the orchestrated output, and that entry is
what solving `c`'s rows alone yields — identical with or without the failing
cohort's rows in the input. -/
theorem cohort_failure_isolated (df : List Player) (bad c : String)
    (hne : c ≠ bad) (hc : c ∈ cohortsOf df)
    (hfail : (solve_cohort_v2 bad (df.filter fun p => p.category == bad)).1 = none) :
    (processCohorts df).lookup c
        = some (solve_cohort_v2 c (df.filter fun p => p.category == c)) ∧
      (processCohorts (df.filter fun p => !(p.category == bad))).lookup c
        = some (solve_cohort_v2 c (df.filter fun p => p.category == c)) := by
  constructor
  · exact lookup_map_pair
      (fun c2 => solve_cohort_v2 c2 (df.filter fun p => p.category == c2))
      (cohortsOf df) c hc
  · have hmem := mem_cohortsOf_filter df bad c hne hc
    rw [← filter_category_drop df bad c hne]
    exact lookup_map_pair
      (fun c2 => solve_cohort_v2 c2
        ((df.filter fun p => !(p.category == bad)).filter fun p => p.category == c2))
      (cohortsOf (df.filter fun p => !(p.category == bad))) c hmem

/-- C9 witness: in `df9` the infeasible cohort `GroupB` does not disturb the
entry of the feasible cohort `GroupA`. -/
theorem cohort_failure_isolated_witness :
    (processCohorts df9).lookup "GroupA"
        = some (solve_cohort_v2 "GroupA" (df9.filter fun p => p.category == "GroupA")) ∧
      (processCohorts (df9.filter fun p => !(p.category == "GroupB"))).lookup "GroupA"
        = some (solve_cohort_v2 "GroupA" (df9.filter fun p => p.category == "GroupA")) :=
  cohort_failure_isolated df9 "GroupB" "GroupA" (by decide)
    (by
      unfold cohortsOf
      rw [mem_sortStrings, List.mem_dedup]
      decide)
    (by decide)

end Logiflow
